import Mathlib

/-!
# Verification of the chop-shop audio sampler

A shallow embedding, in Lean 4, of the core audio-editing, effects-chain,
sequencer and persistence logic of the chop-shop web sampler, together with
proofs and refutations of the documented behavioural properties.

Conventions of the embedding:

* JavaScript numbers are modelled as exact rationals (`ℚ`); the source never
  relies on float rounding for the properties below.
* `Float32Array` / `AudioBuffer` channel data is a `List ℚ` per channel.
  Out-of-bounds writes on a typed array are silently dropped (as in JS);
  `List.set` has exactly that behaviour.  In-bounds reads that the code
  guards with `|| 0` are modelled with `List.getD _ 0`.
* WebIDL `unsigned long` coercion (used by `createBuffer` /
  `OfflineAudioContext` for buffer lengths) truncates a nonnegative float
  toward zero; `lenOfQ` below.
* Sample ids (strings in the source) are modelled by an arbitrary decidable
  type, instantiated with `ℕ` in concrete witnesses.
-/

namespace ChopShop

/-- JavaScript `ToInteger` / `Math.trunc`: truncation of a rational toward
zero (floor for nonnegative values, ceiling for negative ones). -/
def truncQ (x : ℚ) : ℤ :=
  if 0 ≤ x then ⌊x⌋ else ⌈x⌉

/-- WebIDL `unsigned long` conversion of a nonnegative float buffer length,
as performed by `AudioContext.createBuffer` and `OfflineAudioContext` on
their `length` argument: truncate toward zero, clamp negatives to `0`. -/
def lenOfQ (x : ℚ) : ℕ :=
  (truncQ x).toNat

/-! ## Effect settings (`SampleEffects` in `src/app/sequence/page.tsx`)

The samples page (`src/app/samples/page.tsx`) declares the same four
toggleable stages plus `volume`/`pan`; its extra `phaser`/`flanger`/`chorus`
fields are never read by its `buildEffectsChain` and are omitted here. -/

/-- Field `reverb: { enabled, decay, wet }`. -/
structure ReverbSettings where
  enabled : Bool
  decay : ℚ
  wet : ℚ
  deriving DecidableEq, Repr

/-- Field `delay: { enabled, time, feedback, wet }`. -/
structure DelaySettings where
  enabled : Bool
  time : ℚ
  feedback : ℚ
  wet : ℚ
  deriving DecidableEq, Repr

/-- Field `compression: { enabled, threshold, ratio, attack, release }` (the
source's `ratio` field is named `ratioVal` here). -/
structure CompressionSettings where
  enabled : Bool
  threshold : ℚ
  ratioVal : ℚ
  attack : ℚ
  release : ℚ
  deriving DecidableEq, Repr

/-- Field `eq: { enabled, low, mid, high }`. -/
structure EqSettings where
  enabled : Bool
  low : ℚ
  mid : ℚ
  high : ℚ
  deriving DecidableEq, Repr

/-- The per-sample effect parameter record (`interface SampleEffects`). -/
structure SampleEffects where
  reverb : ReverbSettings
  delay : DelaySettings
  compression : CompressionSettings
  eq : EqSettings
  volume : ℚ
  pan : ℚ
  deriving DecidableEq, Repr

/-- The `DEFAULT_EFFECTS` record from `src/app/sequence/page.tsx` (identical values in
`src/app/samples/page.tsx` for the shared fields). -/
def DEFAULT_EFFECTS : SampleEffects :=
  { reverb := { enabled := false, decay := 2, wet := 3/10 }
    delay := { enabled := false, time := 3/10, feedback := 3/10, wet := 1/2 }
    compression := { enabled := false, threshold := -24, ratioVal := 4, attack := 3/1000, release := 1/4 }
    eq := { enabled := false, low := 0, mid := 0, high := 0 }
    volume := 1
    pan := 0 }

/-! ## The constructed effects graph

`buildEffectsChain` threads a single `currentNode` through a sequence of
processing blocks, so the constructed graph is a linear chain of stages;
each internally-parallel block (delay with its feedback/wet/dry mix, reverb
with its wet/dry mix) enters and leaves through one node and is one link of
the chain.  A `Stage` records one such link with the parameters the code
assigns to its nodes; the EQ block contributes its three cascaded biquad
filters as three consecutive links. -/

/-- One link of the per-sample processing chain. -/
inductive Stage where
  /-- `createDynamicsCompressor` with threshold/ratio/attack/release. -/
  | compressor (threshold ratioVal attack release : ℚ)
  /-- biquad filter with `type = 'lowshelf'`. -/
  | lowshelf (freq gainDb : ℚ)
  /-- biquad filter with `type = 'peaking'`. -/
  | peaking (freq q gainDb : ℚ)
  /-- biquad filter with `type = 'highshelf'`. -/
  | highshelf (freq gainDb : ℚ)
  /-- feedback delay block (`createDelay` + feedback/wet/dry gains). -/
  | delay (time feedback wet : ℚ)
  /-- convolution reverb block (`createConvolver` + wet/dry gains). -/
  | reverb (decay wet : ℚ)
  /-- `createStereoPanner` with the given pan position. -/
  | pan (p : ℚ)
  /-- `createGain` with the given linear gain. -/
  | gain (g : ℚ)
  deriving DecidableEq, Repr

/-- The constructor of a stage, forgetting its parameters. -/
inductive StageKind where
  | compressorK | lowshelfK | peakingK | highshelfK | delayK | reverbK | panK | gainK
  deriving DecidableEq, Repr

/-- Which kind of link a stage is. -/
def Stage.kind : Stage → StageKind
  | .compressor _ _ _ _ => .compressorK
  | .lowshelf _ _ => .lowshelfK
  | .peaking _ _ _ => .peakingK
  | .highshelf _ _ => .highshelfK
  | .delay _ _ _ => .delayK
  | .reverb _ _ => .reverbK
  | .pan _ => .panK
  | .gain _ => .gainK

/-- The function `buildEffectsChain` (`src/app/sequence/page.tsx` lines 174-269 and, with
identical structure, `src/app/samples/page.tsx` lines 300-399): starting
from the source node, conditionally append the compression stage, the three
EQ filters (low-shelf at 320 Hz, peaking at 1000 Hz with Q = 0.5, high-shelf
at 3200 Hz), the delay block and the reverb block, each only when its
`enabled` flag is set, then unconditionally append the stereo panner and the
final volume gain. -/
def buildEffectsChain (fx : SampleEffects) : List Stage :=
  let chain : List Stage := []
  let chain := if fx.compression.enabled then
      chain ++ [Stage.compressor fx.compression.threshold fx.compression.ratioVal
        fx.compression.attack fx.compression.release]
    else chain
  let chain := if fx.eq.enabled then
      chain ++ [Stage.lowshelf 320 fx.eq.low, Stage.peaking 1000 (1/2) fx.eq.mid,
        Stage.highshelf 3200 fx.eq.high]
    else chain
  let chain := if fx.delay.enabled then
      chain ++ [Stage.delay fx.delay.time fx.delay.feedback fx.delay.wet]
    else chain
  let chain := if fx.reverb.enabled then
      chain ++ [Stage.reverb fx.reverb.decay fx.reverb.wet]
    else chain
  chain ++ [Stage.pan fx.pan, Stage.gain fx.volume]

/-- The fixed stage order of the chain:
compression → EQ (low-shelf, peaking, high-shelf) → delay → reverb → pan → volume. -/
def canonicalOrder : List StageKind :=
  [.compressorK, .lowshelfK, .peakingK, .highshelfK, .delayK, .reverbK, .panK, .gainK]

/-! ## Signal semantics of a chain (for the identity property)

A signal is a finite buffer of stereo frames.  The gain stage multiplies
both channels; the stereo panner at pan position `0` passes a stereo signal
through unchanged (Web Audio stereo pan law: for `pan = 0` the left gain on
the left channel is `1` with no cross-mix).  The remaining stages
(compressor, biquad filters, delay, convolution reverb) and the panner away
from centre are platform DSP whose sample-exact output this development does
not model; applying one of them yields `none`. -/

/-- Sample-exact semantics of one stage on a stereo buffer, where modelled. -/
def applyStage : Stage → List (ℚ × ℚ) → Option (List (ℚ × ℚ))
  | Stage.pan p, s => if p = 0 then some s else none
  | Stage.gain g, s => some (s.map fun fr => (g * fr.1, g * fr.2))
  | _, _ => none

/-- Run a chain over a stereo buffer; `none` as soon as a stage without a
modelled sample-exact semantics is hit. -/
def runChain : List Stage → List (ℚ × ℚ) → Option (List (ℚ × ℚ))
  | [], s => some s
  | st :: rest, s =>
    match applyStage st s with
    | none => none
    | some s' => runChain rest s'

/-- An all-stages-disabled settings value that is not the default: volume is
`2`.  The claim that a chain with every `enabled` flag false is the identity
fails on it, because the volume gain is unconditional. -/
def allDisabledVolumeTwo : SampleEffects :=
  { DEFAULT_EFFECTS with volume := 2 }

/-! ## Impulse response generation (`createImpulseResponse`)

`src/app/sequence/page.tsx` lines 157-172 and `src/app/samples/page.tsx`
lines 284-298 (identical bodies).  `Math.random()` is modelled by a stream
`rand : ℕ → ℚ` of draws consumed in call order: iteration `i` of the fill
loop draws `rand (2*i)` for the left channel and then `rand (2*i + 1)` for
the right channel.  The code computes `length = sampleRate * decay` as a
float and passes it to `createBuffer`, which truncates it; the loop bound
compares the integer index against the float `length`, so when `length` is
not integral the final iteration writes one slot past the buffer and the
write is dropped — the stored channel data is the first `lenOfQ length`
values in either case, with `n / length` computed against the float
`length`. -/

/-- The two channels of the generated reverb impulse buffer. -/
def createImpulseResponse (rand : ℕ → ℚ) (sampleRate : ℕ) (decay : ℚ) :
    List ℚ × List ℚ :=
  let lengthF : ℚ := (sampleRate : ℚ) * decay
  let bufLen : ℕ := lenOfQ lengthF
  ((List.range bufLen).map fun i => (rand (2 * i) * 2 - 1) * ((lengthF - i) / lengthF) ^ 2,
   (List.range bufLen).map fun i => (rand (2 * i + 1) * 2 - 1) * ((lengthF - i) / lengthF) ^ 2)

/-! ## Sequencer grid resynchronisation on step-count change

`src/app/sequence/page.tsx` lines 130-146: the `useEffect` on `stepCount`
maps every `(sampleId, steps)` entry of the grid to an array of exactly
`stepCount` steps.  The `Map<string, boolean[]>` is modelled as an
association list over an arbitrary id type. -/

/-- The grid after the step-count resynchronisation effect. -/
def resyncGrid {α : Type} (stepCount : ℕ) (grid : List (α × List Bool)) :
    List (α × List Bool) :=
  grid.map fun p =>
    if p.2.length < stepCount then
      (p.1, p.2 ++ List.replicate (stepCount - p.2.length) false)
    else if stepCount < p.2.length then
      (p.1, p.2.take stepCount)
    else p

/-! ## MIDI message handling (`MIDIService.handleMIDIMessage`)

`src/unnamed/part_001` lines 398-422.  The result is what is delivered to
the registered note callbacks: `none` when the message is dropped (short
data, neither note-on nor note-off, or consumed by learning mode), otherwise
`some (note, velocity, isNoteOn)` passed to every callback.  Learning mode
consumes a note-on only when a learn callback is installed
(`isLearningMode && isNoteOn && this.learnCallback`). -/

/-- The callback arguments produced for one incoming MIDI message. -/
def handleMIDIMessage (isLearningMode hasLearnCallback : Bool) (data : List ℕ) :
    Option (ℕ × ℕ × Bool) :=
  if data.length < 3 then none
  else
    let status := data.getD 0 0
    let note := data.getD 1 0
    let velocity := data.getD 2 0
    let command := status &&& 0xf0
    if command = 0x90 ∧ 0 < velocity then
      if isLearningMode ∧ hasLearnCallback then none
      else some (note, 127, true)
    else if command = 0x80 ∨ (command = 0x90 ∧ velocity = 0) then
      some (note, 127, false)
    else none

/-! ## Sequencer step scheduling (`startSequencer`)

`src/app/sequence/page.tsx` lines 311-364.  The `Tone.Sequence` callback
receives the exact scheduled audio `time` of the step.  It registers the
visual update (`setCurrentStep`) via `Tone.Draw.schedule` — the deferred
animation-frame path — and it registers the sample playback the same way:
`Tone.Draw.schedule(() => playSample(...), time)`.  `playSample` (lines
271-289) then decodes the blob and calls `source.start()` with no time
argument, starting the voice at whatever the audio clock reads when the
draw callback runs.  The model records, for one step callback, which
scheduling path each action is placed on. -/

/-- The two scheduling paths offered by the runtime: sample-accurate audio
time, and the deferred draw/animation-frame path. -/
inductive SchedPath where
  | audioTime
  | drawFrame
  deriving DecidableEq, Repr

/-- An action registered by the step callback. -/
inductive SchedAction where
  | updateStepUI (step : ℕ)
  | triggerSample (sampleId : ℕ)
  deriving DecidableEq, Repr

/-- One registration made by the step callback: an action, the step's
scheduled audio time it was given, and the path it was placed on. -/
structure SchedEvent where
  path : SchedPath
  time : ℚ
  act : SchedAction
  deriving DecidableEq, Repr

/-- Everything the `Tone.Sequence` callback registers for one step: the UI
update, and a trigger for every sample whose pattern marks the step active —
all of it via `Tone.Draw.schedule`. -/
def sequencerStepEvents (grid : List (ℕ × List Bool)) (sampleIds : List ℕ)
    (time : ℚ) (step : ℕ) : List SchedEvent :=
  { path := SchedPath.drawFrame, time := time, act := SchedAction.updateStepUI step } ::
    sampleIds.filterMap fun sid =>
      match grid.find? (fun p => p.1 == sid) with
      | some p =>
        if p.2.getD step false then
          some { path := SchedPath.drawFrame, time := time,
                 act := SchedAction.triggerSample sid }
        else none
      | none => none

/-! ## Offline render length (`handleAutoSave`)

`src/components/AudioEditor.tsx` lines 574-630: the auto-save render pass
computes `duration = endTime - startTime` and constructs
`OfflineAudioContext(numberOfChannels, duration * sampleRate, sampleRate)`.
`timeStretch` is applied only to `source.playbackRate` and never enters the
buffer-length computation; the parameter is kept here to make that visible. -/

/-- The frame count of the buffer rendered by the auto-save pass. -/
def autoSaveRenderLength (startTime endTime _timeStretch : ℚ) (sampleRate : ℕ) : ℕ :=
  lenOfQ ((endTime - startTime) * sampleRate)

/-- The frame count the specification prescribes for the render pass,
following its words: output length = `(endTime − startTime) / timeStretch ×
sampleRate`.  This definition is spec-side, for comparison with
`autoSaveRenderLength`, and is deliberately not derived from the source. -/
def specRenderLength (startTime endTime timeStretch : ℚ) (sampleRate : ℕ) : ℕ :=
  lenOfQ ((endTime - startTime) / timeStretch * sampleRate)

/-! ## The sample editor's splice operations (`AudioEditor.tsx`)

`handleCut` (lines 391-452) and `handlePaste` (lines 486-529) copy channel
data with index loops over `Float32Array`s.  A JS `for`-loop writing
consecutive indices is modelled by `blit`; a store past the end of a typed
array is silently dropped, which is exactly the behaviour of `List.set`. -/

/-- Writing loop: `blit t o vs` writes the values `vs` into `t` at consecutive indices
starting at `o`; out-of-range stores are dropped. -/
def blit : List ℚ → ℕ → List ℚ → List ℚ
  | t, _, [] => t
  | t, o, v :: vs => blit (t.set o v) (o + 1) vs

/-- An `AudioBuffer`: frame count, sample rate, per-channel data.
`createBuffer` produces `len` zero frames in every channel;
`AudioBuffer.duration` is `length / sampleRate`. -/
structure ABuffer where
  len : ℕ
  rate : ℚ
  channels : List (List ℚ)
  deriving DecidableEq, Repr

/-- Web Audio defines `AudioBuffer.duration = length / sampleRate`. -/
def ABuffer.duration (b : ABuffer) : ℚ :=
  (b.len : ℚ) / b.rate

/-- The `AudioEditor` component state touched by the splice operations:
the working buffer, the trim range, the transient selection and the
single-slot clipboard. -/
structure EditorState where
  buf : ABuffer
  startTime : ℚ
  endTime : ℚ
  selectionStart : Option ℚ
  selectionEnd : Option ℚ
  clipboard : Option ABuffer
  deriving DecidableEq, Repr

/-- One channel of the clipboard buffer filled by `handleCut`/`handleCopy`:
`targetData[i] = sourceData[startSample + i] || 0` for every index of the
`clipLen`-frame clipboard (the loop writes every slot once, in order, so
the fill is a map over the index range). -/
def cutClipboardChannel (src : List ℚ) (startSample clipLen : ℕ) : List ℚ :=
  (List.range clipLen).map fun i => src.getD (startSample + i) 0

/-- One channel of the post-cut working buffer: a zero-filled channel of
`tlen` frames receiving `targetData[i] = sourceData[i]` for
`i < startSample`, then `targetData[i - (endSample - startSample)] =
sourceData[i]` for `endSample ≤ i < sourceData.length` (so the second loop
writes offset `startSample` onward).  In-range reads are assumed
(`startSample ≤ sourceData.length` in every use below). -/
def cutBufferChannel (src : List ℚ) (startSample endSample tlen : ℕ) : List ℚ :=
  blit
    (blit (List.replicate tlen 0) 0 ((List.range startSample).map fun i => src.getD i 0))
    startSample
    ((List.range (src.length - endSample)).map fun j => src.getD (endSample + j) 0)

/-- One channel of the post-paste working buffer: a zero-filled channel of
`tlen` frames receiving `targetData[i] = sourceData[i]` for
`i < pasteSample`, then the clipboard channel at `pasteSample`, then
`targetData[i + clipboardData.length] = sourceData[i]` for
`pasteSample ≤ i < sourceData.length`. -/
def pasteChannel (src clip : List ℚ) (pasteSample tlen : ℕ) : List ℚ :=
  blit
    (blit
      (blit (List.replicate tlen 0) 0 ((List.range pasteSample).map fun i => src.getD i 0))
      pasteSample clip)
    (pasteSample + clip.length)
    ((List.range (src.length - pasteSample)).map fun j => src.getD (pasteSample + j) 0)

/-- The cut handler `handleCut`: with no selection the handler alerts and returns.
Otherwise it orders the selection endpoints, copies the selected region
into a fresh clipboard buffer of `lenOfQ ((selEnd − selStart) · rate)`
frames (sample indices by `Math.floor(time · rate)`), builds the new
working buffer of `lenOfQ ((duration − (selEnd − selStart)) · rate)`
frames without the cut region, then stores the new buffer, clears the
selection and sets the trim end time to the new buffer's duration.
`startTime` is not touched. -/
def handleCut (s : EditorState) : EditorState :=
  match s.selectionStart, s.selectionEnd with
  | some selS, some selE =>
    let selStart := min selS selE
    let selEnd := max selS selE
    let dur := selEnd - selStart
    let rate := s.buf.rate
    let clipLen := lenOfQ (dur * rate)
    let startSample := (⌊selStart * rate⌋).toNat
    let endSample := (⌊selEnd * rate⌋).toNat
    let clip : ABuffer :=
      ⟨clipLen, rate, s.buf.channels.map fun ch => cutClipboardChannel ch startSample clipLen⟩
    let newLen := lenOfQ ((s.buf.duration - dur) * rate)
    let newBuf : ABuffer :=
      ⟨newLen, rate, s.buf.channels.map fun ch => cutBufferChannel ch startSample endSample newLen⟩
    { s with
      buf := newBuf
      clipboard := some clip
      selectionStart := none
      selectionEnd := none
      endTime := newBuf.duration }
  | _, _ => s

/-- The paste handler `handlePaste`: with an empty clipboard the handler alerts and returns.
Otherwise the paste position is
`Math.min(selectionStart, selectionEnd || selectionStart)` when a selection
start exists (`||` falls back on a null or zero `selectionEnd`), else the
current trim end time; the new working buffer has
`lenOfQ ((duration + clipboard.duration) · rate)` frames, splicing the
clipboard in at `Math.floor(pastePosition · rate)`.  The handler then
stores the new buffer, sets the trim end time to its duration and clears
the selection; the clipboard is kept. -/
def handlePaste (s : EditorState) : EditorState :=
  match s.clipboard with
  | none => s
  | some clip =>
    let pastePos :=
      match s.selectionStart with
      | some selS =>
        let selE :=
          match s.selectionEnd with
          | some selE => if selE = 0 then selS else selE
          | none => selS
        min selS selE
      | none => s.endTime
    let rate := s.buf.rate
    let newLen := lenOfQ ((s.buf.duration + clip.duration) * rate)
    let pasteSample := (⌊pastePos * rate⌋).toNat
    let newBuf : ABuffer :=
      ⟨newLen, rate,
        List.zipWith (fun srcCh clipCh => pasteChannel srcCh clipCh pasteSample newLen)
          s.buf.channels clip.channels⟩
    { s with
      buf := newBuf
      endTime := newBuf.duration
      selectionStart := none
      selectionEnd := none }

/-- Concrete editor state refuting C4 as universally stated: a 3-frame
mono buffer at rate 1 with the selection `[1/2 s, 2 s]`, whose start does
not fall on a sample frame. -/
def cexCutPasteState : EditorState :=
  { buf := ⟨3, 1, [[1, 2, 3]]⟩
    startTime := 0
    endTime := 3
    selectionStart := some (1/2)
    selectionEnd := some 2
    clipboard := none }

/-- Concrete editor state refuting the trim-range consequence of C10: a
3-frame buffer at rate 1 (duration 3 s), trim range `[2, 3]`, selection
`[0 s, 2 s]`.  Cutting leaves a 1-second buffer while `startTime` stays 2. -/
def cexTrimState : EditorState :=
  { buf := ⟨3, 1, [[0, 0, 0]]⟩
    startTime := 2
    endTime := 3
    selectionStart := some 0
    selectionEnd := some 2
    clipboard := none }

/-! ## WAV export (`audioBufferToWav`, `AudioEditor.tsx` lines 632-681) -/

/-- The 16-bit value the WAV writer stores for one float sample:
`int16 = Math.max(-1, Math.min(1, sample)) * 0x7FFF`, then
`int16 < 0 ? int16 | 0x8000 : int16` (the bitwise or coerces the float to a
32-bit integer by truncation first; `DataView.setInt16` later keeps the low
16 bits). -/
def jsInt16Encode (q : ℚ) : ℤ :=
  let x := max (-1) (min 1 q) * 32767
  if x < 0 then Int.lor (truncQ x) 32768 else truncQ x

/-- Little-endian bytes stored by `DataView.setInt16 (offset, v, true)`:
the low 16 bits of the value, low byte first. -/
def int16leBytes (v : ℤ) : List ℕ :=
  [(v.emod 65536).toNat % 256, (v.emod 65536).toNat / 256]

/-- Little-endian bytes of `DataView.setUint16`. -/
def u16le (n : ℕ) : List ℕ :=
  [n % 256, n / 256 % 256]

/-- Little-endian bytes of `DataView.setUint32`. -/
def u32le (n : ℕ) : List ℕ :=
  [n % 256, n / 256 % 256, n / 65536 % 256, n / 16777216 % 256]

/-- Bytes of `DataView.setUint32` applied to a float (sample rate, byte rate):
truncate toward zero, wrap modulo `2^32`, store little-endian. -/
def u32ofQ (q : ℚ) : List ℕ :=
  u32le ((truncQ q).emod 4294967296).toNat

/-- The exporter `audioBufferToWav`: interleave the channels frame by frame into 16-bit
values (`for i < buffer.length`, inner loop over channels), then lay out the
44-byte RIFF/WAVE header — `RIFF`, riff-chunk size `36 + dataLength`,
`WAVE`, `fmt `, fmt-chunk size 16, audio format 1 (PCM), channel count,
sample rate, byte rate `sampleRate * blockAlign`, block align
`channels * 2`, bit depth 16, `data`, `dataLength = sampleCount *
channelCount * 2` — followed by the interleaved samples as little-endian
16-bit words. -/
def audioBufferToWav (buf : ABuffer) : List ℕ :=
  let numberOfChannels := buf.channels.length
  let blockAlign := numberOfChannels * 2
  let data : List ℤ :=
    (List.range buf.len).flatMap fun i =>
      buf.channels.map fun ch => jsInt16Encode (ch.getD i 0)
  let dataLength := data.length * 2
  [82, 73, 70, 70] ++ u32le (36 + dataLength) ++
    [87, 65, 86, 69] ++ [102, 109, 116, 32] ++ u32le 16 ++ u16le 1 ++
    u16le numberOfChannels ++ u32ofQ buf.rate ++
    u32ofQ (buf.rate * (blockAlign : ℚ)) ++ u16le blockAlign ++ u16le 16 ++
    [100, 97, 116, 97] ++ u32le dataLength ++ data.flatMap int16leBytes

end ChopShop

namespace ChopShop

/-! ## Theorems: effects chain structure (C3) and identity (C5) -/

/-- C3: for every `SampleEffects` value the chain built by
`buildEffectsChain` keeps the fixed order compression → 3-band EQ
(low-shelf 320 Hz, peaking 1000 Hz Q = 0.5, high-shelf 3200 Hz) → delay →
reverb → pan → volume: its stage kinds form a sublist of the canonical
order; each toggleable stage occurs (with exactly the parameters of the
settings) precisely when its `enabled` flag is set and is elided entirely
otherwise — the chain being a single linear list, the preceding stage then
feeds directly into the next enabled one; and the chain always ends with the
panner followed by the volume gain. -/
theorem C3_chain_order_and_elision (fx : SampleEffects) :
    ((buildEffectsChain fx).map Stage.kind).Sublist canonicalOrder ∧
    (buildEffectsChain fx).filter (fun s => s.kind == StageKind.compressorK) =
      (if fx.compression.enabled then
        [Stage.compressor fx.compression.threshold fx.compression.ratioVal
          fx.compression.attack fx.compression.release] else []) ∧
    (buildEffectsChain fx).filter (fun s =>
        s.kind == StageKind.lowshelfK || s.kind == StageKind.peakingK ||
          s.kind == StageKind.highshelfK) =
      (if fx.eq.enabled then
        [Stage.lowshelf 320 fx.eq.low, Stage.peaking 1000 (1/2) fx.eq.mid,
          Stage.highshelf 3200 fx.eq.high] else []) ∧
    (buildEffectsChain fx).filter (fun s => s.kind == StageKind.delayK) =
      (if fx.delay.enabled then
        [Stage.delay fx.delay.time fx.delay.feedback fx.delay.wet] else []) ∧
    (buildEffectsChain fx).filter (fun s => s.kind == StageKind.reverbK) =
      (if fx.reverb.enabled then [Stage.reverb fx.reverb.decay fx.reverb.wet] else []) ∧
    ∃ pre, buildEffectsChain fx = pre ++ [Stage.pan fx.pan, Stage.gain fx.volume] := by
  obtain ⟨⟨re, rdec, rwet⟩, ⟨de, dt, dfb, dw⟩, ⟨ce, cth, cra, cat, crel⟩, ⟨ee, el, em, eh⟩, vol, p⟩ := fx
  refine ⟨?_, ?_, ?_, ?_, ?_, ⟨_, rfl⟩⟩ <;>
    cases re <;> cases de <;> cases ce <;> cases ee <;>
      simp [buildEffectsChain, Stage.kind, canonicalOrder] <;> decide

/-- The writing loop `blit` preserves the target length. -/
theorem blit_length (vs t : List ℚ) (o : ℕ) :
    (blit t o vs).length = t.length := by
  induction vs generalizing t o with
  | nil => rfl
  | cons v vs ih => simp [blit, ih]

/-- Element characterisation of `blit`: index `j` holds the written value
when `j` lies in the written span and inside the target, and the previous
content otherwise. -/
theorem blit_getD (vs t : List ℚ) (o j : ℕ) :
    (blit t o vs).getD j 0 =
      if o ≤ j ∧ j < o + vs.length ∧ j < t.length then vs.getD (j - o) 0
      else t.getD j 0 := by
  induction vs generalizing t o with
  | nil =>
    have hc : ¬(o ≤ j ∧ j < o + List.length ([] : List ℚ) ∧ j < t.length) := by
      simp only [List.length_nil, Nat.add_zero]
      omega
    rw [blit, if_neg hc]
  | cons v vs ih =>
    rw [blit, ih]
    simp only [List.length_set, List.length_cons]
    by_cases hA : o + 1 ≤ j ∧ j < o + 1 + vs.length ∧ j < t.length
    · rw [if_pos hA, if_pos (by omega)]
      have hidx : j - o = (j - (o + 1)) + 1 := by omega
      rw [hidx]
      rfl
    · rw [if_neg hA]
      by_cases hjo : j = o
      · subst hjo
        by_cases hjt : j < t.length
        · rw [if_pos (by omega)]
          rw [List.getD_eq_getElem?_getD, List.getElem?_set, if_pos rfl, if_pos hjt]
          simp
        · rw [if_neg (by omega), List.set_eq_of_length_le (by omega)]
      · rw [if_neg (by omega)]
        rw [List.getD_eq_getElem?_getD, List.getElem?_set,
          if_neg (fun h => hjo h.symm), ← List.getD_eq_getElem?_getD]

/-- Two rational lists agree when they have the same length and the same
defaulted elements. -/
theorem listEqOfGetD (xs ys : List ℚ) (hlen : xs.length = ys.length)
    (h : ∀ j, j < xs.length → xs.getD j 0 = ys.getD j 0) : xs = ys := by
  apply List.ext_getElem hlen
  intro n h1 h2
  have hn := h n h1
  rwa [List.getD_eq_getElem _ _ h1, List.getD_eq_getElem _ _ h2] at hn

/-- Reading index `i < n` of `(List.range n).map f` gives `f i`. -/
theorem getD_map_range (f : ℕ → ℚ) (n i : ℕ) (h : i < n) :
    ((List.range n).map f).getD i 0 = f i := by
  have hlen : i < ((List.range n).map f).length := by simpa using h
  rw [List.getD_eq_getElem _ _ hlen, List.getElem_map, List.getElem_range]

/-- Applying `lenOfQ` to an exact natural value gives that natural. -/
theorem lenOfQ_natCast (n : ℕ) : lenOfQ (n : ℚ) = n := by
  simp [lenOfQ, truncQ]

/-- The clipboard channel has the requested length. -/
theorem cutClipboardChannel_length (src : List ℚ) (a k : ℕ) :
    (cutClipboardChannel src a k).length = k := by
  simp [cutClipboardChannel]

/-- The clipboard channel holds the source values from `startSample` on. -/
theorem cutClipboardChannel_getD (src : List ℚ) (a k i : ℕ) (hi : i < k) :
    (cutClipboardChannel src a k).getD i 0 = src.getD (a + i) 0 := by
  rw [cutClipboardChannel, getD_map_range _ _ _ hi]

/-- The post-cut channel has the requested length. -/
theorem cutBufferChannel_length (src : List ℚ) (a b tlen : ℕ) :
    (cutBufferChannel src a b tlen).length = tlen := by
  simp [cutBufferChannel, blit_length]

/-- Element characterisation of the post-cut channel at the length the cut
handler uses: below `startSample` the source is copied in place, from
`startSample` on the source shifts left by the cut width. -/
theorem cutBufferChannel_getD (src : List ℚ) (a b m : ℕ) (hab : a ≤ b)
    (hbN : b ≤ src.length) (hm : m < src.length - (b - a)) :
    (cutBufferChannel src a b (src.length - (b - a))).getD m 0 =
      if m < a then src.getD m 0 else src.getD (m + (b - a)) 0 := by
  rw [cutBufferChannel, blit_getD, blit_getD]
  simp only [List.length_map, List.length_range, blit_length, List.length_replicate]
  by_cases hma : m < a
  · rw [if_neg (by omega), if_pos (by omega), if_pos hma]
    rw [getD_map_range _ _ _ (by omega)]
    simp
  · rw [if_pos (by omega), if_neg hma]
    rw [getD_map_range _ _ _ (by omega)]
    have hidx : b + (m - a) = m + (b - a) := by omega
    rw [hidx]

/-- The post-paste channel has the requested length. -/
theorem pasteChannel_length (src clip : List ℚ) (p tlen : ℕ) :
    (pasteChannel src clip p tlen).length = tlen := by
  simp [pasteChannel, blit_length]

/-- Cutting the sample range `[a, b)` of a channel and pasting the
clipboard back at sample `a` reproduces the channel. -/
theorem cut_paste_channel (ch : List ℚ) (a b : ℕ) (hab : a ≤ b)
    (hbN : b ≤ ch.length) :
    pasteChannel (cutBufferChannel ch a b (ch.length - (b - a)))
      (cutClipboardChannel ch a (b - a)) a ch.length = ch := by
  apply listEqOfGetD
  · rw [pasteChannel_length]
  · intro j hj
    rw [pasteChannel_length] at hj
    rw [pasteChannel, blit_getD, blit_getD, blit_getD]
    simp only [List.length_map, List.length_range, blit_length, List.length_replicate,
      cutClipboardChannel_length, cutBufferChannel_length]
    by_cases hj1 : j < a
    · rw [if_neg (by omega), if_neg (by omega), if_pos (by omega)]
      rw [getD_map_range _ _ _ (by omega)]
      simp only [Nat.sub_zero]
      rw [cutBufferChannel_getD ch a b j hab hbN (by omega), if_pos hj1]
    · by_cases hj2 : j < b
      · rw [if_neg (by omega), if_pos (by omega)]
        rw [cutClipboardChannel_getD ch a (b - a) (j - a) (by omega)]
        have hidx : a + (j - a) = j := by omega
        rw [hidx]
      · rw [if_pos (by
          refine ⟨by omega, by omega, by omega⟩)]
        rw [getD_map_range _ _ _ (by omega)]
        rw [cutBufferChannel_getD ch a b (a + (j - (a + (b - a)))) hab hbN (by omega)]
        rw [if_neg (by omega)]
        have hidx : a + (j - (a + (b - a))) + (b - a) = j := by omega
        rw [hidx]

/-- C5 (counterexample to the claim as stated): with every stage `enabled`
flag false but volume `2`, the built chain doubles the signal, so the
output does not equal the input. -/
theorem C5_counterexample :
    allDisabledVolumeTwo.compression.enabled = false ∧
    allDisabledVolumeTwo.eq.enabled = false ∧
    allDisabledVolumeTwo.delay.enabled = false ∧
    allDisabledVolumeTwo.reverb.enabled = false ∧
    runChain (buildEffectsChain allDisabledVolumeTwo) [(1, 1)] ≠ some [(1, 1)] := by
  refine ⟨rfl, rfl, rfl, rfl, ?_⟩
  simp [allDisabledVolumeTwo, DEFAULT_EFFECTS, buildEffectsChain, runChain, applyStage]

/-- C5 (amended): for every settings value with every stage `enabled` flag
false and with volume `1` and pan `0` (the documented defaults), the built
chain maps every input buffer to itself. -/
theorem C5_all_disabled_identity (fx : SampleEffects) (s : List (ℚ × ℚ))
    (h1 : fx.compression.enabled = false) (h2 : fx.eq.enabled = false)
    (h3 : fx.delay.enabled = false) (h4 : fx.reverb.enabled = false)
    (h5 : fx.volume = 1) (h6 : fx.pan = 0) :
    runChain (buildEffectsChain fx) s = some s := by
  simp [buildEffectsChain, h1, h2, h3, h4, h5, h6, runChain, applyStage]

/-- C5 witness: the amended identity at the default settings and a concrete
buffer. -/
theorem C5_all_disabled_identity_witness :
    runChain (buildEffectsChain DEFAULT_EFFECTS) [(1, 2), (-3/4, 0)] =
      some [(1, 2), (-3/4, 0)] :=
  C5_all_disabled_identity DEFAULT_EFFECTS _ rfl rfl rfl rfl rfl rfl

/-- C6: when `sampleRate * decay` is the whole number `L`, the generated
impulse is two channels of exactly `L` samples, and at each index `i` the
channels hold an independent draw mapped into `(-1, 1)` (left channel draws
`rand (2*i)`, right channel draws `rand (2*i + 1)`) scaled by
`((L − i) / L) ^ 2`. -/
theorem C6_impulse_response (rand : ℕ → ℚ) (sampleRate : ℕ) (decay : ℚ)
    (L : ℕ) (hL : (sampleRate : ℚ) * decay = L) :
    (createImpulseResponse rand sampleRate decay).1.length = L ∧
    (createImpulseResponse rand sampleRate decay).2.length = L ∧
    ∀ i < L,
      (createImpulseResponse rand sampleRate decay).1.getD i 0 =
        (rand (2 * i) * 2 - 1) * (((L : ℚ) - i) / L) ^ 2 ∧
      (createImpulseResponse rand sampleRate decay).2.getD i 0 =
        (rand (2 * i + 1) * 2 - 1) * (((L : ℚ) - i) / L) ^ 2 := by
  simp only [createImpulseResponse]
  rw [hL, lenOfQ_natCast]
  refine ⟨by simp, by simp, fun i hi => ⟨?_, ?_⟩⟩ <;>
    rw [getD_map_range _ _ _ hi]

/-- C6 witness: the impulse shape at `sampleRate = 2`, `decay = 3/2`
(so `L = 3`) and the draw stream `k ↦ k / 7`, evaluated at index 1. -/
theorem C6_impulse_response_witness :
    (createImpulseResponse (fun k => (k : ℚ) / 7) 2 (3/2)).1.length = 3 ∧
    (createImpulseResponse (fun k => (k : ℚ) / 7) 2 (3/2)).1.getD 1 0 =
      ((2 : ℚ) / 7 * 2 - 1) * (((3 : ℚ) - 1) / 3) ^ 2 := by
  have h := C6_impulse_response (fun k => (k : ℚ) / 7) 2 (3/2) 3 (by norm_num)
  refine ⟨h.1, ?_⟩
  have := (h.2.2 1 (by norm_num)).1
  simpa using this

/-- C7: on a step-count change every step array in the grid is
resynchronised to length `stepCount`; each entry becomes its first
`stepCount` steps padded with inactive (`false`) steps, so longer arrays
are truncated and shorter ones zero-padded — for every sample id in the
grid. -/
theorem C7_grid_resync {α : Type} (stepCount : ℕ) (grid : List (α × List Bool)) :
    (∀ p ∈ resyncGrid stepCount grid, p.2.length = stepCount) ∧
    (∀ p ∈ grid,
      (p.1, p.2.take stepCount ++ List.replicate (stepCount - p.2.length) false) ∈
        resyncGrid stepCount grid) := by
  constructor
  · intro p hp
    simp only [resyncGrid, List.mem_map] at hp
    obtain ⟨q, _, rfl⟩ := hp
    by_cases h1 : q.2.length < stepCount
    · simp [h1]
      omega
    · by_cases h2 : stepCount < q.2.length
      · simp [h1, h2]
        omega
      · simp [h1, h2]
        omega
  · intro p hp
    have hmem : (fun p : α × List Bool =>
        if p.2.length < stepCount then
          (p.1, p.2 ++ List.replicate (stepCount - p.2.length) false)
        else if stepCount < p.2.length then
          (p.1, p.2.take stepCount)
        else p) p ∈ resyncGrid stepCount grid :=
      List.mem_map_of_mem _ hp
    by_cases h1 : p.2.length < stepCount
    · have htake : p.2.take stepCount = p.2 := List.take_of_length_le (by omega)
      simpa [h1, htake] using hmem
    · by_cases h2 : stepCount < p.2.length
      · have hrep : stepCount - p.2.length = 0 := by omega
        simpa [h1, h2, hrep] using hmem
      · have hlen : p.2.length = stepCount := by omega
        have htake : p.2.take stepCount = p.2 := List.take_of_length_le (by omega)
        simpa [h1, h2, htake, hlen] using hmem

/-- C7 witness: resynchronising a concrete two-sample grid to 3 steps pads
the short array and truncates the long one. -/
theorem C7_grid_resync_witness :
    ((0 : ℕ), [true, false, false]) ∈
      resyncGrid 3 [((0 : ℕ), [true]), (1, [false, true, true, false])] ∧
    (((1 : ℕ), [false, true, true]) : ℕ × List Bool).2.length = 3 := by
  have h := C7_grid_resync 3 [((0 : ℕ), [true]), (1, [false, true, true, false])]
  exact ⟨by simpa using h.2 ((0 : ℕ), [true]) (by simp),
    h.1 ((1 : ℕ), [false, true, true]) (by decide)⟩

/-- Zipping a function over one list with itself is a map. -/
theorem zipWith_self_eq_map (f : List ℚ → List ℚ → List ℚ) (l : List (List ℚ)) :
    List.zipWith f l l = l.map fun v => f v v := by
  induction l with
  | nil => rfl
  | cons h t ih => simp [ih]

/-- Cutting on a state whose selection is the sample-aligned range
`[a/rate, b/rate]` of an `N`-frame buffer: the clipboard receives the
`b - a` selected frames of every channel, the working buffer shrinks to
`N - (b - a)` frames with the tail shifted left, the selection is cleared
and the trim end becomes the new duration. -/
theorem handleCut_aligned (chans : List (List ℚ)) (N a b : ℕ) (r st et : ℚ)
    (clip0 : Option ABuffer) (hr : 0 < r) (hab : a ≤ b) (hbN : b ≤ N) :
    handleCut ⟨⟨N, r, chans⟩, st, et, some ((a : ℚ) / r), some ((b : ℚ) / r), clip0⟩ =
      ⟨⟨N - (b - a), r, chans.map fun ch => cutBufferChannel ch a b (N - (b - a))⟩,
        st, ((N - (b - a) : ℕ) : ℚ) / r, none, none,
        some ⟨b - a, r, chans.map fun ch => cutClipboardChannel ch a (b - a)⟩⟩ := by
  have hr' : r ≠ 0 := ne_of_gt hr
  have hcast : (a : ℚ) ≤ (b : ℚ) := by exact_mod_cast hab
  have hmin : min ((a : ℚ) / r) ((b : ℚ) / r) = (a : ℚ) / r :=
    min_eq_left (by gcongr)
  have hmax : max ((a : ℚ) / r) ((b : ℚ) / r) = (b : ℚ) / r :=
    max_eq_right (by gcongr)
  have hdur : ((b : ℚ) / r - (a : ℚ) / r) * r = ((b - a : ℕ) : ℚ) := by
    rw [div_sub_div_same, div_mul_cancel₀ _ hr', Nat.cast_sub hab]
  have hnew : ((N : ℚ) / r - ((b : ℚ) / r - (a : ℚ) / r)) * r = ((N - (b - a) : ℕ) : ℚ) := by
    rw [div_sub_div_same, div_sub_div_same, div_mul_cancel₀ _ hr']
    rw [Nat.cast_sub (show b - a ≤ N by omega), Nat.cast_sub hab]
  have hfloorA : (⌊(a : ℚ) / r * r⌋).toNat = a := by
    rw [div_mul_cancel₀ _ hr']
    simp
  have hfloorB : (⌊(b : ℚ) / r * r⌋).toNat = b := by
    rw [div_mul_cancel₀ _ hr']
    simp
  simp only [handleCut, ABuffer.duration, hmin, hmax, hdur, hnew, hfloorA, hfloorB,
    lenOfQ_natCast]

/-- C4 (amended): cutting a selection whose endpoints `a / rate` and
`b / rate` fall exactly on sample frames of the working buffer (with
`a ≤ b ≤ frame count`) and immediately pasting with the selection start
placed back at the cut point reconstructs the original working buffer
bit-for-bit — same frame count, same rate, identical channel data. -/
theorem C4_cut_paste_aligned (chans : List (List ℚ)) (N a b : ℕ) (r st et : ℚ)
    (clip0 : Option ABuffer) (hr : 0 < r) (hab : a ≤ b) (hbN : b ≤ N)
    (hch : ∀ ch ∈ chans, ch.length = N) :
    (handlePaste
      { handleCut ⟨⟨N, r, chans⟩, st, et, some ((a : ℚ) / r), some ((b : ℚ) / r), clip0⟩ with
        selectionStart := some ((a : ℚ) / r)
        selectionEnd := some ((a : ℚ) / r) }).buf = ⟨N, r, chans⟩ := by
  have hr' : r ≠ 0 := ne_of_gt hr
  rw [handleCut_aligned chans N a b r st et clip0 hr hab hbN]
  have hsum : (((N - (b - a) : ℕ) : ℚ) / r + ((b - a : ℕ) : ℚ) / r) * r = ((N : ℕ) : ℚ) := by
    rw [div_add_div_same, div_mul_cancel₀ _ hr']
    rw [Nat.cast_sub (by omega)]
    push_cast [Nat.cast_sub hab]
    ring
  have hfloorA : (⌊(a : ℚ) / r * r⌋).toNat = a := by
    rw [div_mul_cancel₀ _ hr']
    simp
  simp only [handlePaste, ABuffer.duration, ite_self, min_self, hsum, hfloorA,
    lenOfQ_natCast, cutClipboardChannel_length, List.zipWith_map]
  rw [zipWith_self_eq_map]
  have hchan : chans.map (fun ch =>
      pasteChannel (cutBufferChannel ch a b (N - (b - a)))
        (cutClipboardChannel ch a (b - a)) a N) = chans := by
    conv_rhs => rw [← List.map_id chans]
    apply List.map_congr_left
    intro ch hch'
    have hlen := hch ch hch'
    simp only [id_eq]
    rw [← hlen]
    exact cut_paste_channel ch a b hab (by omega)
  rw [hchan]

/-- C4 witness: the aligned cut-then-paste round trip on a concrete
4-frame buffer at rate 2 with the selection `[1/2 s, 3/2 s]`. -/
theorem C4_cut_paste_aligned_witness :
    (handlePaste
      { handleCut ⟨⟨4, 2, [[1, 2, 3, 4]]⟩, 0, 2, some (((1 : ℕ) : ℚ) / 2),
          some (((3 : ℕ) : ℚ) / 2), none⟩ with
        selectionStart := some (((1 : ℕ) : ℚ) / 2)
        selectionEnd := some (((1 : ℕ) : ℚ) / 2) }).buf = ⟨4, 2, [[1, 2, 3, 4]]⟩ :=
  C4_cut_paste_aligned [[1, 2, 3, 4]] 4 1 3 2 0 2 none (by norm_num) (by omega)
    (by omega) (by simp)

/-- C4 (counterexample to the claim as stated): on a 3-frame mono buffer at
rate 1, cutting the selection `[1/2 s, 2 s]` — whose start does not fall on
a sample frame — and pasting back at the same location does not reconstruct
the original working buffer: the sample-index flooring drops one frame. -/
theorem C4_counterexample :
    (handlePaste
      { handleCut cexCutPasteState with
        selectionStart := some (1/2)
        selectionEnd := some (1/2) }).buf.channels ≠ cexCutPasteState.buf.channels := by
  have hcut : handleCut cexCutPasteState =
      ⟨⟨1, 1, [[(3 : ℚ)]]⟩, 0, 1, none, none, some ⟨1, 1, [[(1 : ℚ)]]⟩⟩ := by
    norm_num [handleCut, cexCutPasteState, ABuffer.duration, lenOfQ, truncQ,
      cutBufferChannel, cutClipboardChannel, blit, List.range_succ]
    all_goals decide
  rw [hcut]
  have hpaste : (handlePaste
      { (⟨⟨1, 1, [[(3 : ℚ)]]⟩, 0, 1, none, none,
          some ⟨1, 1, [[(1 : ℚ)]]⟩⟩ : EditorState) with
        selectionStart := some (1/2)
        selectionEnd := some (1/2) }).buf.channels = [[(1 : ℚ), 3]] := by
    norm_num [handlePaste, ABuffer.duration, lenOfQ, truncQ,
      pasteChannel, blit, List.range_succ]
    all_goals decide
  rw [hpaste]
  simp [cexCutPasteState]

/-- C10 (counterexample to the trim-range consequence): a legitimate state
with trim range `[2 s, 3 s]` on a 3-second buffer; cutting the selection
`[0 s, 2 s]` leaves a 1-second buffer while the trim start stays at 2 s,
past the end of the new working buffer. -/
theorem C10_counterexample :
    cexTrimState.startTime < cexTrimState.endTime ∧
    cexTrimState.endTime = cexTrimState.buf.duration ∧
    (handleCut cexTrimState).buf.duration < (handleCut cexTrimState).startTime := by
  refine ⟨by norm_num [cexTrimState], by norm_num [cexTrimState, ABuffer.duration], ?_⟩
  norm_num [handleCut, cexTrimState, ABuffer.duration, lenOfQ, truncQ]

/-- C10 (amended): after a cut (performed with a selection) or a paste
(performed with a clipboard) the editor sets the trim end time to the new
working buffer's duration and clears the selection, so the trim end never
extends past the end of the buffer; the trim start is left unchanged and
can exceed the new duration after a cut. -/
theorem C10_splice_resets_trim_end (s : EditorState) :
    (∀ q1 q2, s.selectionStart = some q1 → s.selectionEnd = some q2 →
      (handleCut s).endTime = (handleCut s).buf.duration ∧
      (handleCut s).selectionStart = none ∧ (handleCut s).selectionEnd = none) ∧
    (∀ c, s.clipboard = some c →
      (handlePaste s).endTime = (handlePaste s).buf.duration ∧
      (handlePaste s).selectionStart = none ∧ (handlePaste s).selectionEnd = none) := by
  constructor
  · intro q1 q2 h1 h2
    simp [handleCut, h1, h2]
  · intro c hc
    simp [handlePaste, hc]

/-- C10 witness: the amended property on a concrete state carrying both a
selection and a clipboard. -/
theorem C10_splice_resets_trim_end_witness :
    ((handleCut ⟨⟨2, 1, [[1, 2]]⟩, 0, 2, some 0, some 1, some ⟨1, 1, [[5]]⟩⟩).endTime =
      (handleCut ⟨⟨2, 1, [[1, 2]]⟩, 0, 2, some 0, some 1,
        some ⟨1, 1, [[5]]⟩⟩).buf.duration) ∧
    (handlePaste ⟨⟨2, 1, [[1, 2]]⟩, 0, 2, some 0, some 1,
      some ⟨1, 1, [[5]]⟩⟩).selectionStart = none :=
  ⟨((C10_splice_resets_trim_end _).1 0 1 rfl rfl).1,
    ((C10_splice_resets_trim_end _).2 _ rfl).2.1⟩

/-- C9: whenever a MIDI message reaches the registered note callbacks, the
velocity delivered is the fixed maximum 127, regardless of the velocity
byte reported by the device. -/
theorem C9_fixed_velocity (isLearningMode hasLearnCallback : Bool)
    (data : List ℕ) (r : ℕ × ℕ × Bool)
    (h : handleMIDIMessage isLearningMode hasLearnCallback data = some r) :
    r.2.1 = 127 := by
  simp only [handleMIDIMessage] at h
  repeat' split at h
  all_goals first
    | exact Option.noConfusion h
    | (cases Option.some.inj h; rfl)

/-- C9 witness: a note-on with device velocity 5 is delivered with
velocity 127. -/
theorem C9_fixed_velocity_witness :
    handleMIDIMessage false false [144, 60, 5] = some (60, 127, true) ∧
    ((60, 127, true) : ℕ × ℕ × Bool).2.1 = 127 :=
  ⟨by decide, C9_fixed_velocity false false [144, 60, 5] (60, 127, true) (by decide)⟩

/-- Flattening 16-bit words doubles the length. -/
theorem flatMap_int16le_length (L : List ℤ) :
    (L.flatMap int16leBytes).length = 2 * L.length := by
  induction L with
  | nil => rfl
  | cons v tl ih =>
    simp only [List.flatMap_cons, List.length_append, ih, List.length_cons]
    simp [int16leBytes]
    ring

/-- Dropping `2 * j` bytes of the flattened 16-bit words lands exactly at
word `j`. -/
theorem flatMap_int16le_drop (L : List ℤ) (j : ℕ) (hj : j < L.length) :
    (L.flatMap int16leBytes).drop (2 * j) =
      int16leBytes (L.getD j 0) ++ (L.drop (j + 1)).flatMap int16leBytes := by
  induction L generalizing j with
  | nil => exact absurd hj (by simp)
  | cons v tl ih =>
    cases j with
    | zero => simp [List.flatMap_cons]
    | succ j' =>
      rw [show 2 * (j' + 1) = 2 * j' + 1 + 1 by ring, List.flatMap_cons,
        show int16leBytes v =
          [(v.emod 65536).toNat % 256, (v.emod 65536).toNat / 256] from rfl,
        List.cons_append, List.cons_append, List.drop_succ_cons, List.drop_succ_cons,
        List.nil_append, ih j' (by simpa using hj)]
      simp [List.getD_cons_succ]

/-- Length of the row-by-row interleaving over `List.range`. -/
theorem flatMap_rows_length (m k : ℕ) (rows : ℕ → List ℤ)
    (hrow : ∀ t, (rows t).length = k) :
    ((List.range m).flatMap rows).length = m * k := by
  induction m with
  | zero => simp
  | succ m ih =>
    rw [List.range_succ, List.flatMap_append]
    simp [ih, hrow, Nat.succ_mul]

/-- Word `i * k + c` of the row-by-row interleaving is entry `c` of row
`i`, when all rows have length `k`. -/
theorem flatMap_rows_getD (m k i c : ℕ) (rows : ℕ → List ℤ)
    (hrow : ∀ t, (rows t).length = k) (hi : i < m) (hc : c < k) :
    ((List.range m).flatMap rows).getD (i * k + c) 0 = (rows i).getD c 0 := by
  induction m with
  | zero => omega
  | succ m ih =>
    rw [List.range_succ, List.flatMap_append]
    have hlen : ((List.range m).flatMap rows).length = m * k :=
      flatMap_rows_length m k rows hrow
    by_cases him : i < m
    · rw [List.getD_append _ _ _ _ (by
        rw [hlen]
        calc i * k + c < i * k + k := by omega
          _ = (i + 1) * k := by ring
          _ ≤ m * k := Nat.mul_le_mul_right k him)]
      exact ih him
    · have him' : i = m := by omega
      subst him'
      rw [List.getD_append_right _ _ _ _ (by rw [hlen]; exact Nat.le_add_right _ _)]
      rw [hlen, Nat.add_sub_cancel_left]
      simp

/-- Taking two bytes at the head of a flattened word sequence yields that
word's bytes. -/
theorem take_two_int16le (v : ℤ) (rest : List ℕ) :
    (int16leBytes v ++ rest).take 2 = int16leBytes v := rfl

set_option maxHeartbeats 1600000 in
/-- C8: for every buffer, the exported WAV bytes are a RIFF/WAVE container:
total size 44 header bytes plus the data; the `RIFF`, `WAVE`, `fmt ` and
`data` tags at their fixed offsets; audio format 1 (PCM) and bit depth 16 in
the `fmt ` chunk; the channel count field; a `data` chunk length field equal
to sampleCount × channelCount × 2; and at byte offset
`44 + 2·(frame·channelCount + channel)` the 16-bit little-endian
two's-complement encoding of that frame of that channel — i.e. the samples
are channel-interleaved, frame by frame. -/
theorem C8_wav_layout (buf : ABuffer) :
    (audioBufferToWav buf).length = 44 + buf.len * buf.channels.length * 2 ∧
    (audioBufferToWav buf).take 4 = [82, 73, 70, 70] ∧
    ((audioBufferToWav buf).drop 8).take 4 = [87, 65, 86, 69] ∧
    ((audioBufferToWav buf).drop 12).take 4 = [102, 109, 116, 32] ∧
    ((audioBufferToWav buf).drop 20).take 2 = u16le 1 ∧
    ((audioBufferToWav buf).drop 22).take 2 = u16le buf.channels.length ∧
    ((audioBufferToWav buf).drop 34).take 2 = u16le 16 ∧
    ((audioBufferToWav buf).drop 36).take 4 = [100, 97, 116, 97] ∧
    ((audioBufferToWav buf).drop 40).take 4 =
      u32le (buf.len * buf.channels.length * 2) ∧
    ∀ i < buf.len, ∀ c < buf.channels.length,
      ((audioBufferToWav buf).drop (44 + 2 * (i * buf.channels.length + c))).take 2 =
        int16leBytes (jsInt16Encode ((buf.channels.getD c []).getD i 0)) := by
  have hdl : ((List.range buf.len).flatMap fun i =>
        buf.channels.map fun ch => jsInt16Encode (ch.getD i 0)).length =
      buf.len * buf.channels.length :=
    flatMap_rows_length buf.len buf.channels.length _ (fun t => by simp)
  refine ⟨?_, rfl, rfl, rfl, rfl, rfl, rfl, rfl, ?_, ?_⟩
  · simp only [audioBufferToWav]
    simp only [List.length_append, flatMap_int16le_length, hdl, u32le, u16le, u32ofQ,
      List.length_cons, List.length_nil]
    ring
  · have hfield : ((audioBufferToWav buf).drop 40).take 4 =
        u32le (((List.range buf.len).flatMap fun i =>
          buf.channels.map fun ch => jsInt16Encode (ch.getD i 0)).length * 2) := rfl
    rw [hfield, hdl]
  · intro i hi c hc
    have hidx : i * buf.channels.length + c <
        ((List.range buf.len).flatMap fun i =>
          buf.channels.map fun ch => jsInt16Encode (ch.getD i 0)).length := by
      rw [hdl]
      calc i * buf.channels.length + c < i * buf.channels.length + buf.channels.length := by
            omega
        _ = (i + 1) * buf.channels.length := by ring
        _ ≤ buf.len * buf.channels.length := Nat.mul_le_mul_right _ hi
    have hdrop44 : (audioBufferToWav buf).drop 44 =
        ((List.range buf.len).flatMap fun i =>
          buf.channels.map fun ch => jsInt16Encode (ch.getD i 0)).flatMap int16leBytes := rfl
    rw [← List.drop_drop, hdrop44, flatMap_int16le_drop _ _ hidx, take_two_int16le]
    rw [flatMap_rows_getD buf.len buf.channels.length i c _ (fun t => by simp) hi hc]
    rw [List.getD_eq_getElem _ _ (by simpa using hc), List.getElem_map,
      ← List.getD_eq_getElem _ _ hc]

/-- C8 witness: the layout at a concrete 2-frame stereo buffer, checking
the magic tag and the interleaved position of frame 1 of channel 0. -/
theorem C8_wav_layout_witness :
    (audioBufferToWav ⟨2, 8, [[1/2, -1/2], [0, 1]]⟩).take 4 = [82, 73, 70, 70] ∧
    ((audioBufferToWav ⟨2, 8, [[1/2, -1/2], [0, 1]]⟩).drop (44 + 2 * (1 * 2 + 0))).take 2 =
      int16leBytes (jsInt16Encode (-1/2)) := by
  have h := C8_wav_layout ⟨2, 8, [[1/2, -1/2], [0, 1]]⟩
  refine ⟨h.2.1, ?_⟩
  have h1 := h.2.2.2.2.2.2.2.2.2 1 (by norm_num) 0 (by norm_num)
  simpa using h1

/-- C2 (evaluation of the code at the failing input): with one sample whose
pattern marks step 0 active, the step callback does register a playback
trigger carrying the scheduled time, but every event it registers —
the trigger included — is placed on the deferred draw/animation-frame path,
not the sample-accurate audio-time path the claim requires. -/
theorem C2_triggers_scheduled_on_draw_path :
    (∃ e ∈ sequencerStepEvents [(7, [true, false])] [7] 5 0,
        e.act = SchedAction.triggerSample 7) ∧
    ∀ e ∈ sequencerStepEvents [(7, [true, false])] [7] 5 0,
      e.path = SchedPath.drawFrame := by
  decide

/-- C1 (evaluation of the code at the failing input): for the session
`startTime = 0`, `endTime = 1`, `timeStretch = 1/2` at 48000 Hz, the
auto-save pass renders a 48000-frame buffer — `timeStretch` is ignored by
the length computation — while the specified length is 96000 frames. -/
theorem C1_render_length_ignores_time_stretch :
    autoSaveRenderLength 0 1 (1/2) 48000 = 48000 ∧
    specRenderLength 0 1 (1/2) 48000 = 96000 := by
  constructor <;>
    norm_num [autoSaveRenderLength, specRenderLength, lenOfQ, truncQ] <;> rfl

end ChopShop
